import Mathlib

/-!
Verification development for the node-ipfs-sync synchronization engine.

The TypeScript sources are shallowly embedded:
* pure string/path manipulation is reimplemented over `List Char`
  (structural recursion, so every definition evaluates in the kernel);
* the LevelDB fingerprint database is an association list of
  string keys and values, iterated in byte-lexicographic order exactly as
  the `gte:` range scan of `level` does;
* the IPFS / Estuary HTTP clients are an oracle (`Env`) giving the result of
  each remote operation, and every embedded engine function additionally
  returns the ordered list of remote calls (`Call`) it performed;
* the filesystem is a finite readdir table (`FS`) plus a set of file paths,
  with `walkdir` translated from `src/watchdog.ts` (fuel makes the
  recursion structural; the source recursion is unbounded);
* JavaScript quirks are modelled explicitly: `>>` reduces its shift count
  mod 32 and operates on the value mod 2^32, `Array.slice` clamps negative
  indices, interpolating `undefined` prints the string "undefined", and
  `x || y` on strings tests emptiness.

The path separator is modelled as `/` (posix).
-/

namespace IpfsSync

/-! ### String helpers (kernel-evaluable replacements for JS/node operations) -/

/-- JS `String.prototype.split` with a single-character separator. -/
def splitChars (sep : Char) : List Char → List (List Char)
  | [] => [[]]
  | c :: cs =>
    let r := splitChars sep cs
    if c = sep then [] :: r
    else
      match r with
      | [] => [[c]]
      | h :: t => (c :: h) :: t

/-- `path.split('/')` from the sources. -/
def strSplit (s : String) (sep : Char) : List String :=
  (splitChars sep s.data).map String.mk

/-- `Array.prototype.join(sep)`. -/
def strJoin (sep : String) : List String → String
  | [] => ""
  | [x] => x
  | x :: xs => x ++ sep ++ strJoin sep xs

/-- `String.prototype.startsWith`. -/
def strStartsWith (s pat : String) : Bool :=
  pat.data.isPrefixOf s.data

/-- `String.prototype.slice(n)` (drop the first `n` UTF-16 units; ASCII here). -/
def strDrop (s : String) (n : Nat) : String :=
  String.mk (s.data.drop n)

/-- `String.prototype.length` (UTF-16 units; ASCII here). -/
def strLen (s : String) : Nat :=
  s.data.length

/-- Clamp an index the way `Array.prototype.slice` does. -/
def jsSliceBound (len : Nat) (i : Int) : Nat :=
  if i < 0 then ((len : Int) + i).toNat else min i.toNat len

/-- JS `Array.prototype.slice(a, b)` (negative indices count from the end). -/
def jsSlice {α : Type} (l : List α) (a b : Int) : List α :=
  (l.take (jsSliceBound l.length b)).drop (jsSliceBound l.length a)

/-- `node:path` `basename` (for the separator-normalized paths used here). -/
def jsBasename (p : String) : String :=
  ((strSplit p '/').filter (fun s => s != "")).getLastD p

/-- Index of the last `'.'` in a character list, if any. -/
def lastDotIdxAux : List Char → Nat → Option Nat
  | [], _ => none
  | c :: rest, i =>
    match lastDotIdxAux rest (i + 1) with
    | some j => some j
    | none => if c = '.' then some i else none

/-- `node:path` `extname`: the suffix of the basename from its last dot
(empty for dotfiles such as `.hidden`). -/
def jsExtname (p : String) : String :=
  let b := jsBasename p
  match lastDotIdxAux b.data 0 with
  | some i => if i = 0 then "" else String.mk (b.data.drop i)
  | none => ""

/-- `node:path` `resolve(cwd, p)` for the already-normalized paths used here:
absolute paths stand, relative ones are joined onto the working directory. -/
def resolveP (cwd p : String) : String :=
  match p.data with
  | '/' :: _ => p
  | _ => cwd ++ "/" ++ p

/-- JS string truthiness fallback `a || b`. -/
def jsOr (a b : String) : String :=
  if a = "" then b else a

/-- Byte-lexicographic strict order on keys, as LevelDB compares them
(UTF-8 byte order coincides with code-point order). -/
def keyLtChars : List Char → List Char → Bool
  | _, [] => false
  | [], _ :: _ => true
  | a :: as, b :: bs =>
    a.toNat < b.toNat || (a = b && keyLtChars as bs)

/-- `key >= path`, the `gte:` bound of a Level iterator. -/
def keyGe (key lo : String) : Bool :=
  !(keyLtChars key.data lo.data)

/-! ### xxh64 (the `@node-rs/xxhash` 64-bit hash, seed 0)

Translated from the reference XXH64 algorithm. The stripe and tail loops
take the byte count as structural fuel so that the kernel can evaluate the
hash; the fuel equals the input length, which bounds the iteration count. -/

def xxPrime1 : Nat := 11400714785074694791
def xxPrime2 : Nat := 14029467366897019727
def xxPrime3 : Nat := 1609587929392839161
def xxPrime4 : Nat := 9650029242287828579
def xxPrime5 : Nat := 2870177450012600261

def xxMod : Nat := 18446744073709551616

/-- 64-bit left rotation (argument already reduced mod 2^64). -/
def rotl64 (x r : Nat) : Nat :=
  ((x <<< r) % xxMod) ||| (x >>> (64 - r))

/-- XXH64 round function. -/
def xxRound (acc input : Nat) : Nat :=
  rotl64 ((acc + input * xxPrime2) % xxMod) 31 * xxPrime1 % xxMod

/-- XXH64 merge round. -/
def xxMergeRound (acc v : Nat) : Nat :=
  ((acc ^^^ xxRound 0 v) * xxPrime1 % xxMod + xxPrime4) % xxMod

/-- Little-endian value of a byte list. -/
def leVal : List Nat → Nat
  | [] => 0
  | b :: bs => b + 256 * leVal bs

/-- 32-byte stripe loop of XXH64 (fuel-bounded; fuel = input length suffices). -/
def xxStripes : Nat → Nat → Nat → Nat → Nat → List Nat → (Nat × Nat × Nat × Nat) × List Nat
  | 0, v1, v2, v3, v4, bs => ((v1, v2, v3, v4), bs)
  | fuel + 1, v1, v2, v3, v4, bs =>
    if 32 ≤ bs.length then
      xxStripes fuel
        (xxRound v1 (leVal (bs.take 8)))
        (xxRound v2 (leVal ((bs.drop 8).take 8)))
        (xxRound v3 (leVal ((bs.drop 16).take 8)))
        (xxRound v4 (leVal ((bs.drop 24).take 8)))
        (bs.drop 32)
    else ((v1, v2, v3, v4), bs)

/-- 8-byte tail loop of XXH64 (fuel-bounded). -/
def xxTail8 : Nat → Nat → List Nat → Nat × List Nat
  | 0, h, bs => (h, bs)
  | fuel + 1, h, bs =>
    if 8 ≤ bs.length then
      xxTail8 fuel
        ((rotl64 (h ^^^ xxRound 0 (leVal (bs.take 8))) 27 * xxPrime1 % xxMod + xxPrime4) % xxMod)
        (bs.drop 8)
    else (h, bs)

/-- 4-byte tail step of XXH64. -/
def xxTail4 (h : Nat) (bs : List Nat) : Nat × List Nat :=
  if 4 ≤ bs.length then
    ((rotl64 (h ^^^ (leVal (bs.take 4) * xxPrime1 % xxMod)) 23 * xxPrime2 % xxMod + xxPrime3) % xxMod,
     bs.drop 4)
  else (h, bs)

/-- Single-byte tail loop of XXH64. -/
def xxTail1 (h : Nat) : List Nat → Nat
  | [] => h
  | b :: bs => xxTail1 (rotl64 (h ^^^ (b * xxPrime5 % xxMod)) 11 * xxPrime1 % xxMod) bs

/-- XXH64 avalanche finalization. -/
def xxAvalanche (h0 : Nat) : Nat :=
  let h1 := h0 ^^^ (h0 >>> 33)
  let h2 := h1 * xxPrime2 % xxMod
  let h3 := h2 ^^^ (h2 >>> 29)
  let h4 := h3 * xxPrime3 % xxMod
  h4 ^^^ (h4 >>> 32)

/-- XXH64 with seed 0 over a byte list. -/
def xxh64 (input : List Nat) : Nat :=
  let len := input.length
  let start :=
    if 32 ≤ len then
      let s := xxStripes len ((xxPrime1 + xxPrime2) % xxMod) xxPrime2 0 (xxMod - xxPrime1) input
      let v1 := s.1.1
      let v2 := s.1.2.1
      let v3 := s.1.2.2.1
      let v4 := s.1.2.2.2
      let h0 := (((rotl64 v1 1 + rotl64 v2 7) % xxMod + rotl64 v3 12) % xxMod + rotl64 v4 18) % xxMod
      (xxMergeRound (xxMergeRound (xxMergeRound (xxMergeRound h0 v1) v2) v3) v4, s.2)
    else (xxPrime5, input)
  let h := (start.1 + len) % xxMod
  let t8 := xxTail8 len h start.2
  let t4 := xxTail4 t8.1 t8.2
  xxAvalanche (xxTail1 t4.1 t4.2)

/-- `BigInt.prototype.toString(16)`: lowercase hex, no padding. -/
def hexStr (n : Nat) : String :=
  String.mk (Nat.toDigits 16 n)

/-! ### Fingerprinter (`fileHash.ts`: class `FileHash`) -/

/-- The result of `fs.statSync` restricted to the fields the code reads.
`mtimeMs` is taken as an integral number of milliseconds. -/
structure FileStat where
  size : Nat
  mtimeMs : Nat
deriving DecidableEq, Repr

/-- The local disk as far as the fingerprinter reads it. -/
structure FileSystem where
  stat : String → FileStat
  content : String → List Nat

/-- One byte of a JS `>>`-and-mask: `0xff & (n >> s)`. JS `>>` first takes
the value to a 32-bit integer and reduces the shift count mod 32 (all shift
counts appearing in the source reduce to at most 24, where this formula is
exact for nonnegative values). -/
def jsShiftByte (n s : Nat) : Nat :=
  ((n % 4294967296) >>> (s % 32)) % 256

/-- The 16-byte buffer `FileHash.getFileFakeHash` actually hashes, with the
shift list `0,8,16,32,40,48,56,64` written in the source (note the missing
`>> 24` and the JS mod-32 shift semantics). -/
def fakeHashBytes (size modTime : Nat) : List Nat :=
  [jsShiftByte size 0, jsShiftByte size 8, jsShiftByte size 16, jsShiftByte size 32,
   jsShiftByte size 40, jsShiftByte size 48, jsShiftByte size 56, jsShiftByte size 64,
   jsShiftByte modTime 0, jsShiftByte modTime 8, jsShiftByte modTime 16, jsShiftByte modTime 32,
   jsShiftByte modTime 40, jsShiftByte modTime 48, jsShiftByte modTime 56, jsShiftByte modTime 64]

structure FileHash where
  pathOnDisk : String
  hash : String
  fakeHash : String
deriving DecidableEq, Repr

namespace FileHash

/-- `FileHash.getFileFakeHash`: stat the file, build the metadata buffer,
hash it with xxh64, render lowercase hex. -/
def getFileFakeHash (fs : FileSystem) (filePath : String) : String :=
  hexStr (xxh64 (fakeHashBytes (fs.stat filePath).size (fs.stat filePath).mtimeMs))

/-- `FileHash.getFileHash`: xxh64 of the file bytes, rendered as hex. -/
def getFileHash (fs : FileSystem) (filePath : String) : String :=
  hexStr (xxh64 (fs.content filePath))

/-- `FileHash.recalculate(dontHash)`. The second component records whether
the file's content was read (`getFileHash` invoked). -/
def recalculate (fs : FileSystem) (fh : FileHash) (dontHash : Bool) : FileHash × Bool :=
  let recalcFakeHash := getFileFakeHash fs fh.pathOnDisk
  if recalcFakeHash == fh.fakeHash then
    (fh, false)
  else
    ({ pathOnDisk := fh.pathOnDisk,
       hash := if dontHash then fh.hash else getFileHash fs fh.pathOnDisk,
       fakeHash := recalcFakeHash }, !dontHash)

end FileHash

/-- Follows the spec's words (§4.2), for comparison with `fakeHashBytes`:
"serializes them into a fixed-width byte buffer (8 bytes size, 8 bytes
modification-time-in-milliseconds, low-byte-first)". -/
def specQuickDigestBytes (size modTime : Nat) : List Nat :=
  [size % 256, size >>> 8 % 256, size >>> 16 % 256, size >>> 24 % 256,
   size >>> 32 % 256, size >>> 40 % 256, size >>> 48 % 256, size >>> 56 % 256,
   modTime % 256, modTime >>> 8 % 256, modTime >>> 16 % 256, modTime >>> 24 % 256,
   modTime >>> 32 % 256, modTime >>> 40 % 256, modTime >>> 48 % 256, modTime >>> 56 % 256]

/-- The quick digest as the spec describes it: xxh64 over the little-endian
serialization, hex-rendered. -/
def specQuickDigest (size modTime : Nat) : String :=
  hexStr (xxh64 (specQuickDigestBytes size modTime))

/-! ### Fingerprint store (`fileHash.ts`: class `FileHashProcessor`,
`hashStore.ts`: class `HashStore`) -/

/-- The durable Level store: keys and values, in iteration (key) order for
the concrete states considered. -/
abbrev DB : Type := List (String × String)

/-- The in-memory mirror `HashStore.hashmap`. -/
abbrev HashMapM : Type := List (String × FileHash)

/-- `db.get(k)`: `none` models a missing key (JS `undefined`). -/
def dbGet (db : DB) (k : String) : Option String :=
  (db.find? (fun kv => kv.1 == k)).map (fun kv => kv.2)

/-- `db.put(k, v)`: overwrite in place, or append a fresh key. -/
def dbPut (db : DB) (k v : String) : DB :=
  if db.any (fun kv => kv.1 == k) then
    db.map (fun kv => if kv.1 == k then (k, v) else kv)
  else
    db ++ [(k, v)]

namespace FileHashProcessor

/-- `FileHashProcessor.update(fileHash)`. Returns the final store, the list
of `db.put` writes performed (in order), and the returned boolean.
Mirrors the source: read `pathOnDisk`, write if different, read
`ts_<path>`, write if different, return `hashChanged && fakeHashChanged`;
with no store configured, return `false` and do nothing. -/
def update (dbOpt : Option DB) (fh : FileHash) : Option DB × List (String × String) × Bool :=
  match dbOpt with
  | none => (none, [], false)
  | some db =>
    let hashChanged := dbGet db fh.pathOnDisk != some fh.hash
    let db1 := if hashChanged then dbPut db fh.pathOnDisk fh.hash else db
    let puts1 : List (String × String) :=
      if hashChanged then [(fh.pathOnDisk, fh.hash)] else []
    let fakeHashChanged := dbGet db1 ("ts_" ++ fh.pathOnDisk) != some fh.fakeHash
    let db2 := if fakeHashChanged then dbPut db1 ("ts_" ++ fh.pathOnDisk) fh.fakeHash else db1
    let puts2 : List (String × String) :=
      if fakeHashChanged then [("ts_" ++ fh.pathOnDisk, fh.fakeHash)] else []
    (some db2, puts1 ++ puts2, hashChanged && fakeHashChanged)

/-- `FileHashProcessor.delete(path)`. The source iterates
`db.iterator({ gte: path })` — every key byte-lexicographically `≥ path`,
with no upper bound — and for each such key deletes it, deletes its
`ts_`-prefixed shadow, and evicts it from the in-memory mirror. -/
def delete (path : String) (dbOpt : Option DB) (hm : HashMapM) : Option DB × HashMapM :=
  match dbOpt with
  | none => (none, hm)
  | some db =>
    let doomed := (db.map (fun kv => kv.1)).filter (fun k => keyGe k path)
    let deleted := doomed ++ doomed.map (fun k => "ts_" ++ k)
    (some (db.filter (fun kv => !(deleted.contains kv.1))),
     hm.filter (fun kv => !(doomed.contains kv.1)))

end FileHashProcessor

/-! ### HTTP error objects (`httpClient.ts`: class `HttpError`) -/

structure HttpError where
  code : Int
  type : String
  message : Option String
  error : Option String
deriving DecidableEq, Repr

namespace HttpError

/-- `HttpError.fromMessage`. -/
def fromMessage (m : String) : HttpError :=
  { code := -1, type := "Error", message := some m, error := some m }

/-- `HttpError.getError`: `this.message || this.error || ''` (JS string
truthiness: an empty or absent field falls through). -/
def getError (e : HttpError) : String :=
  jsOr (e.message.getD "") (e.error.getD "")

end HttpError

/-- The `Result` type of `result.ts`, at error type `HttpError`. -/
inductive Result (α : Type) where
  | ok (value : α)
  | fail (error : HttpError)
deriving DecidableEq, Repr

structure Key where
  id : String
  name : String
deriving DecidableEq, Repr

/-! ### Estuary client (`estuaryClient.ts`) -/

namespace EstuaryClient

/-- The constructor's `hasApiKey = !!config.estuaryApiKey` (JS truthiness:
`undefined` and the empty string are falsy). -/
def hasApiKeyOf (estuaryApiKey : Option String) : Bool :=
  match estuaryApiKey with
  | none => false
  | some s => s != ""

/-- `EstuaryClient.pin(cid, name)`. `postRes` is what the HTTP POST to
`pinning/pins` would return; the second component records whether that
request was issued. The source returns the "Missing Estuary API key."
error precisely when `hasApiKey` is set. -/
def pin (hasApiKey : Bool) (postRes : Option HttpError) : Option HttpError × Bool :=
  if hasApiKey then
    (some (HttpError.fromMessage "Missing Estuary API key."), false)
  else
    (postRes, true)

end EstuaryClient

/-! ### Remote-call trace and oracle for the sync engine (`watchdog.ts`,
`ipfsClient.ts`)

Each constructor marks one invocation of the named client method, with the
arguments the engine passed. -/

inductive Call where
  | addFileApi (filePath : String) (noCopy onlyHash : Bool)
  | makeDir (path : String)
  | removeFile (filePath : String)
  | copyFile (source destination : String)
  | removeCID (cid : String)
  | cleanFilestore
  | pinAdd (cid : String)
  | updatePinApi (fromCid toCid : String)
  | publish (cid key : String)
  | getFileCID (filePath : String)
  | resolveIPNS (key : String)
  | generateKey (name : String)
  | listKeys
  | estuaryPin (cid name : String)
  | estuaryUpdatePin (oldCid newCid name : String)
deriving DecidableEq, Repr

/-- Results the remote collaborators return, per operation and argument. -/
structure Env where
  addFileRes : String → Bool → Bool → Result String
  makeDirRes : String → Option HttpError
  removeFileRes : String → Option HttpError
  copyFileRes : String → String → Option HttpError
  getFileCIDRes : String → String
  generateKeyRes : String → Result Key
  pinRes : String → Option HttpError
  estuaryPinRes : String → String → Option HttpError

/-- The textual bad-block recognition of `IpfsClient.handleBadBlockError`:
the error text starts with `failed to get block` or
`no such file or directory`. -/
def isBadBlockText (e : HttpError) : Bool :=
  strStartsWith (HttpError.getError e) "failed to get block" ||
    strStartsWith (HttpError.getError e) "no such file or directory"

namespace IpfsClient

/-- `IpfsClient.handleBadBlockError(error, filePath, noCopy)`: returns the
boolean the source returns together with the remote calls it makes. With a
path it re-adds the file in hash-only mode and, if that succeeds, removes
the resulting CID recursively; with an empty path it runs the filestore
sweep (`cleanFilestore`). -/
def handleBadBlockError (env : Env) (error : HttpError) (filePath : String) (noCopy : Bool) :
    Bool × List Call :=
  if !(isBadBlockText error) then
    (false, [])
  else if filePath = "" then
    (true, [Call.cleanFilestore])
  else
    match env.addFileRes filePath noCopy true with
    | Result.ok cid => (true, [Call.addFileApi filePath noCopy true, Call.removeCID cid])
    | Result.fail _ => (true, [Call.addFileApi filePath noCopy true])

end IpfsClient

namespace Watchdog

/-- `mfsPath.split('/').slice(0, -1).join('/')` — the parent MFS directory. -/
def mfsParent (mfsPath : String) : String :=
  strJoin "/" ((strSplit mfsPath '/').dropLast)

/-- The calls `Watchdog.addFile` makes up to and including the
`files/cp` link step, once the content add has returned `ipfsHash`. -/
def addFilePreTrace (basePath pathOnDisk mfsPath : String)
    (noCopy makeDir overwrite : Bool) (ipfsHash : String) : List Call :=
  [Call.addFileApi pathOnDisk noCopy false]
    ++ (if makeDir then [Call.makeDir (mfsParent mfsPath)] else [])
    ++ (if overwrite then [Call.removeFile mfsPath] else [])
    ++ [Call.copyFile ("/ipfs/" ++ ipfsHash) (basePath ++ mfsPath)]

/-- `Watchdog.addFile(pathOnDisk, mfsPath, noCopy, makeDir, overwrite)`.
The source retries itself (unboundedly) when the link step fails with a
recognized bad-block error; the `Nat` fuel makes that recursion structural,
`none` meaning the fuel ran out. Note the source returns
`ok(ipfsHash)` even when the link step failed unrecognizably, and discards
the retry's own result. -/
def addFile (env : Env) (basePath : String) :
    Nat → String → String → Bool → Bool → Bool → Option (Result String × List Call)
  | 0, _, _, _, _, _ => none
  | fuel + 1, pathOnDisk, mfsPath, noCopy, makeDir, overwrite =>
    match env.addFileRes pathOnDisk noCopy false with
    | Result.fail e => some (Result.fail e, [Call.addFileApi pathOnDisk noCopy false])
    | Result.ok ipfsHash =>
      match (if makeDir then env.makeDirRes (mfsParent mfsPath) else none) with
      | some e =>
        some (Result.fail e,
          [Call.addFileApi pathOnDisk noCopy false, Call.makeDir (mfsParent mfsPath)])
      | none =>
        let t := addFilePreTrace basePath pathOnDisk mfsPath noCopy makeDir overwrite ipfsHash
        match env.copyFileRes ("/ipfs/" ++ ipfsHash) (basePath ++ mfsPath) with
        | none => some (Result.ok ipfsHash, t)
        | some cpErr =>
          let hb := IpfsClient.handleBadBlockError env cpErr pathOnDisk noCopy
          if hb.1 then
            match addFile env basePath fuel pathOnDisk mfsPath noCopy makeDir overwrite with
            | none => none
            | some (_, rt) => some (Result.ok ipfsHash, t ++ hb.2 ++ rt)
          else
            some (Result.ok ipfsHash, t ++ hb.2)

end Watchdog

/-! ### Configuration fragments (`config.ts`) -/

/-- The slice of `Configuration` the embedded engine functions read. -/
structure Cfg where
  ignoreHidden : Bool
  ignore : List String
deriving DecidableEq, Repr

/-- `DirKey` from `config.ts` (with the trailing separator already appended
by `index.ts`). -/
structure DirKey where
  ID : String
  Dir : String
  Nocopy : Bool
  DontHash : Bool
  Pin : Bool
  Estuary : Bool
  CID : String
  MFSPath : String
deriving DecidableEq, Repr

namespace Watchdog

/-- `Watchdog.shouldIgnorePath`: hidden-file rule (basename starts with a
dot, when enabled) or ignored extension (as `path.extname` reports it,
leading dot included). -/
def shouldIgnorePath (cfg : Cfg) (path : String) : Bool :=
  (cfg.ignoreHidden && strStartsWith (jsBasename path) ".") ||
    cfg.ignore.contains (jsExtname path)

/-- One directory's body of the drift-polling loop in `Watchdog.start`
(the `for (const dir of config.dirs)` body inside `while (true)`): read the
current MFS root CID; if non-empty and different from the last-known CID,
update the local pin (if `Pin`), mirror to Estuary (if `Estuary`), publish
the new CID under the directory's key, and store it. -/
def syncDirTick (env : Env) (d : DirKey) : DirKey × List Call :=
  let fcid := env.getFileCIDRes d.MFSPath
  if fcid != "" && fcid != d.CID then
    let t1 := [Call.getFileCID d.MFSPath]
    let t2 := t1 ++ (if d.Pin then [Call.updatePinApi d.CID fcid] else [])
    let t3 := t2 ++
      (if d.Estuary then
        [Call.estuaryUpdatePin d.CID fcid ((strSplit d.MFSPath '/').headD "")]
      else [])
    ({ d with CID := fcid }, t3 ++ [Call.publish fcid d.ID])
  else
    (d, [Call.getFileCID d.MFSPath])

end Watchdog

/-! ### Directory walker (`watchdog.ts`: `walkdir`) -/

/-- The on-disk directory structure, as the walker observes it:
a readdir table keyed by absolute path, and the set of regular files.
A path in neither table fails `stat`/`readdir`, which aborts the walk. -/
structure FS where
  dirs : List (String × List String)
  files : List String

/-- `fs.readdir` against the table. -/
def FS.readdir (fs : FS) (p : String) : Option (List String) :=
  (fs.dirs.find? (fun kv => kv.1 == p)).map (fun kv => kv.2)

/-- `stats.isFile()`. -/
def FS.isFile (fs : FS) (p : String) : Bool :=
  fs.files.contains p

/-- Outcome of a walk: the collected files, or a propagated I/O error. -/
inductive WalkRes where
  | ok (files : List String)
  | ioError
deriving DecidableEq, Repr

/-- `walkdir(dir, shouldIgnorePath)` from `watchdog.ts`: readdir, and per
entry (in readdir order) resolve the entry against the directory (relative
starting directories resolve against the process working directory `cwd`),
skip it when ignored, collect it when it is a regular file, and recurse
otherwise. A failing `readdir`/`stat` aborts the whole walk. The source
recursion is on the subdirectory; fuel (`none` = exhausted) makes it
structural. -/
def walkdir (fs : FS) (cwd : String) (ign : String → Bool) :
    Nat → String → Option WalkRes
  | 0, _ => none
  | fuel + 1, dir =>
    let adir := resolveP cwd dir
    match fs.readdir adir with
    | none => some WalkRes.ioError
    | some entries =>
      entries.foldl
        (fun acc entry =>
          match acc with
          | none => none
          | some WalkRes.ioError => some WalkRes.ioError
          | some (WalkRes.ok files) =>
            let path := adir ++ "/" ++ entry
            if ign path then some (WalkRes.ok files)
            else if fs.isFile path then some (WalkRes.ok (files ++ [path]))
            else
              match walkdir fs cwd ign fuel path with
              | none => none
              | some WalkRes.ioError => some WalkRes.ioError
              | some (WalkRes.ok nested) => some (WalkRes.ok (files ++ nested)))
        (some (WalkRes.ok []))

namespace Watchdog

/-- The per-file loop of `Watchdog.addDir`: for each walked file compute
its parent directory, create it on first sight (`localDirs`), build the
MFS path by slicing off the configured root path, and push the file
through `Watchdog.addFile` (whose failures are logged and skipped). -/
def addDirFiles (env : Env) (basePath : String) (fuel : Nat)
    (rootPath dirName : String) (noCopy : Bool) :
    List String → List String → Option (List Call)
  | [], _ => some []
  | file :: rest, seen =>
    let parentDir := strJoin "/" ((strSplit file '/').dropLast)
    let mkDir := !(seen.contains parentDir)
    let mfsPath := strDrop file (strLen rootPath)
    match addFile env basePath fuel file (dirName ++ "/" ++ mfsPath) noCopy mkDir false with
    | none => none
    | some (_, t) =>
      match addDirFiles env basePath fuel rootPath dirName noCopy rest (parentDir :: seen) with
      | none => none
      | some t2 => some (t ++ t2)

/-- `Watchdog.addDir(path, noCopy, pin, estuary)`: take `dirName` to be the
second-to-last component of `path` (`pathParts.splice(-2, 1)[0]`), walk
`dirName` — a path relative to the working directory, not `path` itself —
push every walked file, read the directory CID from MFS, pin it locally
and/or to Estuary per the flags, and return the CID. -/
def addDir (fs : FS) (cwd : String) (cfg : Cfg) (env : Env) (basePath : String)
    (fuel : Nat) (path : String) (noCopy pin estuary : Bool) :
    Option (Result String × List Call) :=
  let pathParts := strSplit path '/'
  let dirName := pathParts.getD (pathParts.length - 2) ""
  match walkdir fs cwd (shouldIgnorePath cfg) fuel dirName with
  | none => none
  | some WalkRes.ioError =>
    some (Result.fail (HttpError.fromMessage "Error walking directory"), [])
  | some (WalkRes.ok files) =>
    match addDirFiles env basePath fuel path dirName noCopy files [] with
    | none => none
    | some t =>
      let cid := env.getFileCIDRes dirName
      let t1 := t ++ [Call.getFileCID dirName]
      let t2 := t1 ++ (if pin then [Call.pinAdd cid] else [])
      let t3 := t2 ++ (if estuary then [Call.estuaryPin cid dirName] else [])
      some (Result.ok cid, t3)

/-- Whether the startup key scan of `Watchdog.start` finds the directory's
key (`key.name === KEY_SPACE + dir.ID`, with `KEY_SPACE = 'ipfs-sync.'`). -/
def keyFound (keys : List Key) (d : DirKey) : Bool :=
  keys.any (fun k => k.name == "ipfs-sync." ++ d.ID)

/-- The Generating branch of `Watchdog.start` for one directory (taken when
`keyFound` is false): generate the IPNS key, `addDir` the directory, store
the returned CID on the `DirKey`, and publish it under `dir.ID`. Key
generation and `addDir` failures abort startup (`Result.fail`). -/
def generateDir (fs : FS) (cwd : String) (cfg : Cfg) (env : Env) (basePath : String)
    (fuel : Nat) (d : DirKey) : Option (Result DirKey × List Call) :=
  match env.generateKeyRes d.ID with
  | Result.fail e => some (Result.fail e, [Call.generateKey d.ID])
  | Result.ok _ =>
    match addDir fs cwd cfg env basePath fuel d.Dir d.Nocopy d.Pin d.Estuary with
    | none => none
    | some (Result.fail e, t) => some (Result.fail e, Call.generateKey d.ID :: t)
    | some (Result.ok cid, t) =>
      some (Result.ok { d with CID := cid },
        Call.generateKey d.ID :: t ++ [Call.publish cid d.ID])

/-- The `removeFile` closure installed by `Watchdog.watchDir` for `unlink`
events: ignore paths outside the watched root or matching the ignore
rules; otherwise remove `dirName/mfsPath` from MFS (where `dirName` is
`dir.Dir.split(sep).slice(-2, 1)[0]` — `undefined` for any absolute
watched root, interpolated as the string "undefined") and run the
fingerprint-store cascade delete on `mfsPath`, the slice of the on-disk
path past the watched root. -/
def watchRemoveFile (cfg : Cfg) (d : DirKey) (dbOpt : Option DB) (hm : HashMapM)
    (path : String) : Option DB × HashMapM × List Call :=
  if !(strStartsWith path d.Dir) then (dbOpt, hm, [])
  else if shouldIgnorePath cfg path then (dbOpt, hm, [])
  else
    let mfsPath := strDrop path (strLen d.Dir)
    let dirName := (jsSlice (strSplit d.Dir '/') (-2) 1).head?
    let dirNameS := dirName.getD "undefined"
    let res := FileHashProcessor.delete mfsPath dbOpt hm
    (res.1, res.2, [Call.removeFile (dirNameS ++ "/" ++ mfsPath)])

end Watchdog

/-! ### Concrete fixtures for witnesses and counterexample evaluations -/

/-- A disk whose every path stats as an empty zero-time file with content
`"hi"`. -/
def fs0 : FileSystem :=
  { stat := fun _ => { size := 0, mtimeMs := 0 }, content := fun _ => [104, 105] }

/-- A fingerprint whose stored quick digest matches what `fs0` recomputes. -/
def fhEq : FileHash :=
  { pathOnDisk := "/d/a", hash := "h", fakeHash := FileHash.getFileFakeHash fs0 "/d/a" }

/-- A fingerprint with a stale stored quick digest. -/
def fhNe : FileHash :=
  { pathOnDisk := "/d/a", hash := "h", fakeHash := "stale" }

/-- A disk whose files stat with size 2^24 and modification time 0. -/
def fs7 : FileSystem :=
  { stat := fun _ => { size := 16777216, mtimeMs := 0 }, content := fun _ => [] }

/-- A remote whose operations all succeed. -/
def envBase : Env where
  addFileRes := fun _ _ _ => Result.ok "QmAdd"
  makeDirRes := fun _ => none
  removeFileRes := fun _ => none
  copyFileRes := fun _ _ => none
  getFileCIDRes := fun _ => ""
  generateKeyRes := fun n => Result.ok { id := "k-" ++ n, name := "ipfs-sync." ++ n }
  pinRes := fun _ => none
  estuaryPinRes := fun _ _ => none

/-- A remote that resolves every MFS path to the CID `QmB`. -/
def env5 : Env := { envBase with getFileCIDRes := fun _ => "QmB" }

/-- A directory with pinning and Estuary mirroring enabled, last known at
`QmA`. -/
def d5 : DirKey :=
  { ID := "D1", Dir := "/home/user/docs/", Nocopy := false, DontHash := false,
    Pin := true, Estuary := true, CID := "QmA", MFSPath := "docs" }

/-- Configuration with no ignore rules. -/
def cfg0 : Cfg := { ignoreHidden := false, ignore := [] }

/-- A disk holding `/home/user/docs/a.txt`, plus an empty directory
`/elsewhere/docs` visible from the working directory `/elsewhere`. -/
def fs4 : FS :=
  { dirs := [("/home", ["user"]), ("/home/user", ["docs"]),
             ("/home/user/docs", ["a.txt"]), ("/elsewhere/docs", [])],
    files := ["/home/user/docs/a.txt"] }

/-- The directory configuration watching `/home/user/docs/`. -/
def d4 : DirKey :=
  { ID := "D1", Dir := "/home/user/docs/", Nocopy := false, DontHash := false,
    Pin := false, Estuary := false, CID := "", MFSPath := "docs" }

/-- A remote that resolves every MFS path to `QmROOT`. -/
def env4 : Env := { envBase with getFileCIDRes := fun _ => "QmROOT" }

/-- The directory configuration watching `/d/`. -/
def d6 : DirKey :=
  { ID := "D6", Dir := "/d/", Nocopy := false, DontHash := false,
    Pin := false, Estuary := false, CID := "", MFSPath := "d" }

/-- An error in the recognized missing-block class. -/
def badErr : HttpError := HttpError.fromMessage "failed to get block QmX: not found"

/-- A link-step error outside the recognized missing-block class. -/
def otherErr : HttpError := HttpError.fromMessage "permission denied"

/-- A remote whose link step always fails with a missing-block error. -/
def env8 : Env :=
  { envBase with
    addFileRes := fun _ _ onlyHash =>
      if onlyHash then Result.ok "QmOnly" else Result.ok "QmAdd",
    copyFileRes := fun _ _ => some badErr }

/-- A remote whose link step always fails with an unrecognized error. -/
def env10 : Env := { envBase with copyFileRes := fun _ _ => some otherErr }

/-! ### Helper lemmas -/

/-- A key and its `ts_`-shadow differ (they have different lengths). -/
theorem ts_key_ne (p : String) : (p == ("ts_" ++ p)) = false := by
  apply beq_eq_false_iff_ne.mpr
  intro h
  have hlen := congrArg String.length h
  rw [String.length_append] at hlen
  have h3 : ("ts_" : String).length = 3 := rfl
  omega

/-- Overwriting key `k` does not disturb a `find?` for a different key. -/
theorem dbGet_map_overwrite (k v k' : String) (h : (k == k') = false) (db : DB) :
    dbGet (db.map (fun kv => if kv.1 == k then (k, v) else kv)) k' = dbGet db k' := by
  induction db with
  | nil => rfl
  | cons kv rest ih =>
    unfold dbGet at ih ⊢
    by_cases hk : (kv.1 == k) = true
    · have hkeq : kv.1 = k := eq_of_beq hk
      have h2 : (kv.1 == k') = false := by rw [hkeq]; exact h
      simp only [List.map_cons, if_pos hk, List.find?_cons, h, h2]
      exact ih
    · simp only [List.map_cons, if_neg hk, List.find?_cons]
      cases hk' : (kv.1 == k') <;> simp_all

/-- `db.put k v` does not disturb a `get` at a different key. -/
theorem dbGet_dbPut_ne (db : DB) (k v k' : String) (h : (k == k') = false) :
    dbGet (dbPut db k v) k' = dbGet db k' := by
  unfold dbPut
  by_cases ha : db.any (fun kv => kv.1 == k) = true
  · rw [if_pos ha]
    exact dbGet_map_overwrite k v k' h db
  · rw [if_neg ha]
    unfold dbGet
    rw [List.find?_append]
    have : List.find? (fun kv => kv.1 == k') [(k, v)] = none := by
      simp [List.find?, h]
    rw [this]
    cases List.find? (fun kv => kv.1 == k') db <;> rfl

/-! ### Claim theorems -/

/-- C1: the claim says `FileHashProcessor.delete(p)` removes exactly the
durable entries (and `ts_` shadows) whose key has `p` as a prefix and
leaves every other entry untouched. Evaluating the embedded `delete` at a
store holding `/a/a`, `ts_/a/a`, `/a/b`, `/a/bc` shows the code's `gte`
range scan (which has no upper bound) also removes `/a/bc` and `ts_/a/a`,
neither of which is prefixed by `/a/b`. -/
theorem c1_delete_unbounded_range_scan :
    FileHashProcessor.delete "/a/b"
        (some [("/a/a", "h0"), ("ts_/a/a", "f0"), ("/a/b", "h1"), ("/a/bc", "h2")])
        [("/a/bc", { pathOnDisk := "/a/bc", hash := "h2", fakeHash := "f2" })] =
      (some [("/a/a", "h0")], []) := by decide

/-- C2: with a durable store, `FileHashProcessor.update` writes exactly the
digest fields that differ from their stored values (content digest under
the path, quick digest under the `ts_` shadow key) and returns `true` iff
both differed; with no store it returns `false` and performs no writes. -/
theorem c2_update_contract (db : DB) (fh : FileHash) :
    FileHashProcessor.update none fh = (none, [], false) ∧
    (FileHashProcessor.update (some db) fh).2.2 =
      ((dbGet db fh.pathOnDisk != some fh.hash) &&
        (dbGet db ("ts_" ++ fh.pathOnDisk) != some fh.fakeHash)) ∧
    (FileHashProcessor.update (some db) fh).2.1 =
      (if dbGet db fh.pathOnDisk != some fh.hash then [(fh.pathOnDisk, fh.hash)] else []) ++
        (if dbGet db ("ts_" ++ fh.pathOnDisk) != some fh.fakeHash then
          [("ts_" ++ fh.pathOnDisk, fh.fakeHash)] else []) := by
  refine ⟨rfl, ?_, ?_⟩ <;>
  · unfold FileHashProcessor.update
    cases hc : (dbGet db fh.pathOnDisk != some fh.hash) <;>
      simp [hc, dbGet_dbPut_ne db fh.pathOnDisk fh.hash ("ts_" ++ fh.pathOnDisk)
        (ts_key_ne fh.pathOnDisk)]

/-- C3: `FileHash.recalculate` returns the previous fingerprint unmodified,
without reading file content, when the recomputed quick digest matches the
stored one; otherwise it returns a fingerprint with the recomputed quick
digest and a freshly computed content digest — except that `dontHash`
(skip-content-hash) keeps the previous content digest verbatim and skips
the content read. -/
theorem c3_recalculate_contract (fs : FileSystem) (fh : FileHash) (dontHash : Bool) :
    (FileHash.getFileFakeHash fs fh.pathOnDisk = fh.fakeHash →
      FileHash.recalculate fs fh dontHash = (fh, false)) ∧
    (FileHash.getFileFakeHash fs fh.pathOnDisk ≠ fh.fakeHash →
      FileHash.recalculate fs fh dontHash =
        ({ pathOnDisk := fh.pathOnDisk,
           hash := if dontHash then fh.hash else FileHash.getFileHash fs fh.pathOnDisk,
           fakeHash := FileHash.getFileFakeHash fs fh.pathOnDisk }, !dontHash)) := by
  constructor
  · intro h
    unfold FileHash.recalculate
    simp [h]
  · intro h
    unfold FileHash.recalculate
    simp [h]

/-- Witness for C3 at `fs0`: a matching stored quick digest short-circuits
(no content read), a stale one triggers a fresh content digest. -/
theorem c3_recalculate_contract_witness :
    FileHash.recalculate fs0 fhEq true = (fhEq, false) ∧
    FileHash.recalculate fs0 fhNe false =
      ({ pathOnDisk := "/d/a", hash := FileHash.getFileHash fs0 "/d/a",
         fakeHash := FileHash.getFileFakeHash fs0 "/d/a" }, true) := by
  constructor
  · exact (c3_recalculate_contract fs0 fhEq true).1 rfl
  · have h := (c3_recalculate_contract fs0 fhNe false).2 (by decide)
    simpa [fhNe] using h

/-- C7: the claim says the quick digest hashes the file size and
modification time as two 8-byte low-byte-first fields. The source's shift
list skips `>> 24` and, under JS mod-32 shift semantics, duplicates the
low bytes in positions 3–5 and 7; at size 2^24, mtime 0 the buffers and
the resulting hex digests differ. -/
theorem c7_quick_digest_layout :
    fakeHashBytes 16777216 0 ≠ specQuickDigestBytes 16777216 0 ∧
    FileHash.getFileFakeHash fs7 "f" ≠ specQuickDigest 16777216 0 := by decide

/-- C9: `EstuaryClient.pin` returns the "Missing Estuary API key." error,
without issuing the HTTP pin request, precisely when a non-empty API key is
configured; with no key (or an empty one) it issues the request and
returns its result. -/
theorem c9_estuary_pin_guard (apiKey : String) (postRes : Option HttpError)
    (hk : apiKey ≠ "") :
    EstuaryClient.pin (EstuaryClient.hasApiKeyOf (some apiKey)) postRes =
      (some (HttpError.fromMessage "Missing Estuary API key."), false) ∧
    EstuaryClient.pin (EstuaryClient.hasApiKeyOf none) postRes = (postRes, true) ∧
    EstuaryClient.pin (EstuaryClient.hasApiKeyOf (some "")) postRes = (postRes, true) := by
  refine ⟨?_, rfl, rfl⟩
  unfold EstuaryClient.pin EstuaryClient.hasApiKeyOf
  simp [hk]

/-- Witness for C9 with the key `ESTKEY` configured. -/
theorem c9_estuary_pin_guard_witness :
    EstuaryClient.pin (EstuaryClient.hasApiKeyOf (some "ESTKEY")) none =
      (some (HttpError.fromMessage "Missing Estuary API key."), false) :=
  (c9_estuary_pin_guard "ESTKEY" none (by decide)).1

/-- C5: when the remote-resolved root CID `B` is non-empty and differs from
the directory's last-known CID, one drift-polling tick for that directory
performs exactly one local pin-update (iff `Pin`), exactly one Estuary
mirror call (iff `Estuary`), exactly one publish of `B` under the
directory's key, and stores `B` as the directory's CID. -/
theorem c5_drift_tick (env : Env) (d : DirKey) (B : String)
    (hf : env.getFileCIDRes d.MFSPath = B) (hB : B ≠ "") (hne : B ≠ d.CID) :
    Watchdog.syncDirTick env d =
      ({ d with CID := B },
        [Call.getFileCID d.MFSPath]
          ++ (if d.Pin then [Call.updatePinApi d.CID B] else [])
          ++ (if d.Estuary then
                [Call.estuaryUpdatePin d.CID B ((strSplit d.MFSPath '/').headD "")]
              else [])
          ++ [Call.publish B d.ID]) ∧
    ((Watchdog.syncDirTick env d).2.count (Call.updatePinApi d.CID B) =
      if d.Pin then 1 else 0) ∧
    ((Watchdog.syncDirTick env d).2.count
        (Call.estuaryUpdatePin d.CID B ((strSplit d.MFSPath '/').headD "")) =
      if d.Estuary then 1 else 0) ∧
    ((Watchdog.syncDirTick env d).2.count (Call.publish B d.ID) = 1) := by
  have h1 : (B != "") = true := bne_iff_ne.mpr hB
  have h2 : (B != d.CID) = true := bne_iff_ne.mpr hne
  have hgo : Watchdog.syncDirTick env d =
      ({ d with CID := B },
        [Call.getFileCID d.MFSPath]
          ++ (if d.Pin then [Call.updatePinApi d.CID B] else [])
          ++ (if d.Estuary then
                [Call.estuaryUpdatePin d.CID B ((strSplit d.MFSPath '/').headD "")]
              else [])
          ++ [Call.publish B d.ID]) := by
    unfold Watchdog.syncDirTick
    rw [hf]
    simp [h1, h2, List.append_assoc]
  refine ⟨hgo, ?_, ?_, ?_⟩ <;> rw [hgo] <;>
    cases hp : d.Pin <;> cases he : d.Estuary <;>
      simp [List.count_append, List.count_cons]

/-- Witness for C5 at a directory with `Pin` and `Estuary` enabled, last
known at `QmA`, currently resolving to `QmB`. -/
theorem c5_drift_tick_witness :
    Watchdog.syncDirTick env5 d5 =
      ({ d5 with CID := "QmB" },
        [Call.getFileCID "docs", Call.updatePinApi "QmA" "QmB",
         Call.estuaryUpdatePin "QmA" "QmB" "docs", Call.publish "QmB" "D1"]) := by
  have h := (c5_drift_tick env5 d5 "QmB" rfl (by decide) (by decide)).1
  exact h.trans (by decide)

/-- C6: the claim says a watch delete event for on-disk path `p` removes
the remote path and every fingerprint entry keyed by `p` (durable and
mirror). Evaluating the installed `removeFile` closure at the watched root
`/d/` and deleted file `/d/a.txt` shows the code passes the MFS-relative
key `a.txt` to the cascade delete, so the durable entry `/d/a.txt` and the
mirror entry survive (only `ts_/d/a.txt`, which merely sorts ≥ `a.txt`,
is removed), and the remote removal targets `undefined/a.txt`. -/
theorem c6_watch_remove_eval :
    Watchdog.watchRemoveFile cfg0 d6
        (some [("/d/a.txt", "h"), ("ts_/d/a.txt", "f")])
        [("/d/a.txt", { pathOnDisk := "/d/a.txt", hash := "h", fakeHash := "f" })]
        "/d/a.txt" =
      (some [("/d/a.txt", "h")],
       [("/d/a.txt", { pathOnDisk := "/d/a.txt", hash := "h", fakeHash := "f" })],
       [Call.removeFile "undefined/a.txt"]) := by decide

/-- The boolean `handleBadBlockError` returns is exactly the textual
bad-block recognition of the triggering error. -/
theorem handleBadBlockError_fst (env : Env) (e : HttpError) (p : String) (nc : Bool) :
    (IpfsClient.handleBadBlockError env e p nc).1 = isBadBlockText e := by
  unfold IpfsClient.handleBadBlockError
  cases hb : isBadBlockText e
  · simp [hb]
  · by_cases hp : p = ""
    · simp [hb, hp]
    · simp only [hb, Bool.not_true, Bool.false_eq_true, if_false, if_neg hp]
      cases env.addFileRes p nc true <;> rfl

/-- C8: the bad-block recovery protocol returns `true` iff the error text
is in the recognized missing-block class; with a file path it re-adds the
file in hash-only mode and (when that add succeeds) recursively removes
the resulting CID; with no path it runs the filestore sweep; and a
`Watchdog.addFile` whose link step failed with a recognized error performs
the recovery calls and then retries itself exactly once. -/
theorem c8_bad_block_protocol (env : Env) (e : HttpError) (p : String) (nc : Bool) :
    ((IpfsClient.handleBadBlockError env e p nc).1 = isBadBlockText e) ∧
    (isBadBlockText e = true → p ≠ "" →
      (IpfsClient.handleBadBlockError env e p nc).2 =
        Call.addFileApi p nc true ::
          (match env.addFileRes p nc true with
           | Result.ok cid => [Call.removeCID cid]
           | Result.fail _ => [])) ∧
    (isBadBlockText e = true →
      (IpfsClient.handleBadBlockError env e "" nc).2 = [Call.cleanFilestore]) ∧
    (∀ (basePath mfsPath ipfsHash : String) (fuel : Nat) (mk ow : Bool) (cpErr : HttpError),
      env.addFileRes p nc false = Result.ok ipfsHash →
      (mk = true → env.makeDirRes (Watchdog.mfsParent mfsPath) = none) →
      env.copyFileRes ("/ipfs/" ++ ipfsHash) (basePath ++ mfsPath) = some cpErr →
      isBadBlockText cpErr = true →
      Watchdog.addFile env basePath (fuel + 1) p mfsPath nc mk ow =
        (match Watchdog.addFile env basePath fuel p mfsPath nc mk ow with
         | none => none
         | some (_, rt) =>
            some (Result.ok ipfsHash,
              Watchdog.addFilePreTrace basePath p mfsPath nc mk ow ipfsHash ++
                (IpfsClient.handleBadBlockError env cpErr p nc).2 ++ rt))) := by
  refine ⟨handleBadBlockError_fst env e p nc, ?_, ?_, ?_⟩
  · intro hb hp
    unfold IpfsClient.handleBadBlockError
    simp only [hb, Bool.not_true, Bool.false_eq_true, if_false, if_neg hp]
    cases env.addFileRes p nc true <;> rfl
  · intro hb
    unfold IpfsClient.handleBadBlockError
    simp [hb]
  · intro basePath mfsPath ipfsHash fuel mk ow cpErr hAdd hMk hCp hBad
    have hmk : (if mk then env.makeDirRes (Watchdog.mfsParent mfsPath) else none) = none := by
      cases mk
      · rfl
      · exact hMk rfl
    have hb1 : (IpfsClient.handleBadBlockError env cpErr p nc).1 = true :=
      (handleBadBlockError_fst env cpErr p nc).trans hBad
    simp only [Watchdog.addFile, hAdd, hmk, hCp, hb1, if_true]

/-- Witness for C8: at a remote whose link step persistently fails with a
missing-block error, recovery recognizes the error, performs the hash-only
re-add plus recursive removal (or the filestore sweep without a path), and
the single-retry recursion of `addFile` bottoms out when its fuel is
exhausted by persistent failure. -/
theorem c8_bad_block_protocol_witness :
    (IpfsClient.handleBadBlockError env8 badErr "/d/a.txt" false).1 = true ∧
    (IpfsClient.handleBadBlockError env8 badErr "/d/a.txt" false).2 =
      [Call.addFileApi "/d/a.txt" false true, Call.removeCID "QmOnly"] ∧
    (IpfsClient.handleBadBlockError env8 badErr "" false).2 = [Call.cleanFilestore] ∧
    Watchdog.addFile env8 "/base/" 1 "/d/a.txt" "docs/a.txt" false false false = none := by
  have H := c8_bad_block_protocol env8 badErr "/d/a.txt" false
  refine ⟨H.1.trans (by decide), ?_, ?_, ?_⟩
  · exact (H.2.1 (by decide) (by decide)).trans (by decide)
  · exact H.2.2.1 (by decide)
  · have h4 := H.2.2.2 "/base/" "docs/a.txt" "QmAdd" 0 false false badErr rfl
      (fun h => Bool.noConfusion h) rfl (by decide)
    exact h4.trans (by decide)

/-- C10: when the content add succeeds, the make-dir step (if taken)
succeeds, and the link step fails with an error outside the recognized
missing-block class, `Watchdog.addFile` still returns success carrying the
added CID — the link failure is not propagated. -/
theorem c10_link_failure_swallowed (env : Env)
    (basePath pathOnDisk mfsPath ipfsHash : String) (fuel : Nat)
    (noCopy makeDir overwrite : Bool) (cpErr : HttpError)
    (hAdd : env.addFileRes pathOnDisk noCopy false = Result.ok ipfsHash)
    (hMk : makeDir = true → env.makeDirRes (Watchdog.mfsParent mfsPath) = none)
    (hCp : env.copyFileRes ("/ipfs/" ++ ipfsHash) (basePath ++ mfsPath) = some cpErr)
    (hBad : isBadBlockText cpErr = false) :
    Watchdog.addFile env basePath (fuel + 1) pathOnDisk mfsPath noCopy makeDir overwrite =
      some (Result.ok ipfsHash,
        Watchdog.addFilePreTrace basePath pathOnDisk mfsPath noCopy makeDir overwrite ipfsHash) := by
  have hmk : (if makeDir then env.makeDirRes (Watchdog.mfsParent mfsPath) else none) = none := by
    cases makeDir
    · rfl
    · exact hMk rfl
  have hb : IpfsClient.handleBadBlockError env cpErr pathOnDisk noCopy = (false, []) := by
    unfold IpfsClient.handleBadBlockError
    simp [hBad]
  simp only [Watchdog.addFile, hAdd, hmk, hCp, hb, Bool.false_eq_true, if_false,
    List.append_nil]

/-- Witness for C10: a permission-denied link failure after a successful
add still yields `ok QmAdd`. -/
theorem c10_link_failure_swallowed_witness :
    Watchdog.addFile env10 "/ipfs-sync/" 1 "/d/a.txt" "docs/a.txt" false true false =
      some (Result.ok "QmAdd",
        [Call.addFileApi "/d/a.txt" false false, Call.makeDir "docs",
         Call.copyFile "/ipfs/QmAdd" "/ipfs-sync/docs/a.txt"]) := by
  have h := c10_link_failure_swallowed env10 "/ipfs-sync/" "/d/a.txt" "docs/a.txt" "QmAdd" 0
    false true false otherErr rfl (fun _ => rfl) rfl (by decide)
  exact h.trans (by decide)

/-- C4: the claim says the Generating transition uploads every non-ignored
file under the directory's configured local root. Evaluating the embedded
branch at a world where the configured root `/home/user/docs/` holds
`a.txt` (present, not ignored) but the process working directory is
`/elsewhere` shows `addDir` walks the relative path `docs` — the root's
final component resolved against the working directory — so no
publish-file call is made for `a.txt`: the trace holds only the key
generation, the root-CID read, and the publish. -/
theorem c4_generating_walks_cwd_not_root :
    Watchdog.keyFound [] d4 = false ∧
    FS.isFile fs4 "/home/user/docs/a.txt" = true ∧
    Watchdog.shouldIgnorePath cfg0 "/home/user/docs/a.txt" = false ∧
    Watchdog.generateDir fs4 "/elsewhere" cfg0 env4 "/ipfs-sync/" 3 d4 =
      some (Result.ok { d4 with CID := "QmROOT" },
        [Call.generateKey "D1", Call.getFileCID "docs", Call.publish "QmROOT" "D1"]) ∧
    Call.addFileApi "/home/user/docs/a.txt" false false ∉
      [Call.generateKey "D1", Call.getFileCID "docs", Call.publish "QmROOT" "D1"] := by
  decide

end IpfsSync
